import Mathlib

/-!
Verification development for the rockpool documentation repository.

The repository material defines two small protocols:
* the Functional State Protocol (Units with parameters / state / simulation
  parameters, functional `evolve`, `set_attributes`, `reset_state`,
  flatten / unflatten), and
* the Graph DRC Protocol (GraphModules, GraphNodes, conversion between
  module kinds, and the design-rule checker `check_drc`).

The DRC checker, the example conversion rule, and the example design rules
appear as executable code in the repository notebooks and are embedded here
verbatim.  The Module / JaxModule implementation and the graph helper
functions live outside the supplied sources; those definitions are marked
`Modelled from the spec:` and follow the specification text.
-/

namespace Rockpool

/-! ## Values and bundles

Modelled from the spec: a Unit holds mappings from names to values of a
declared semantic type (scalar or array); attribute bundles are flattened
mappings from (dotted) names to values, so a bundle is an association list
from strings to values.  Numeric leaves are modelled as integers; none of
the verified state-protocol properties depends on the numeric domain. -/

inductive Value : Type where
  | num (z : ℤ)
  | arr (l : List ℤ)
deriving DecidableEq

/-- Modelled from the spec: an Attribute Bundle is a mapping from flattened
dotted names to values. -/
abbrev Bundle : Type := List (String × Value)

/-- Modelled from the spec: a Unit (the Module / JaxModule implementation is
not in the source tree) holds three disjoint name-to-value mappings --
trainable parameters, mutable state, fixed simulation parameters -- together
with the declared initial values used by the reset operations and the static
shape metadata needed to reconstruct the Unit. -/
structure Unit : Type where
  params : Bundle
  state : Bundle
  simparams : Bundle
  init_params : Bundle
  init_state : Bundle
  shape : Nat
deriving DecidableEq

/-- The names declared by a unit: parameter, state and simulation-parameter
names together. -/
def declaredNames (u : Unit) : List String :=
  (u.params ++ u.state ++ u.simparams).map Prod.fst

/-- Overlay a bundle onto a mapping: every entry whose name appears in the
bundle takes the bundle value, every other entry is kept; no new names are
introduced. -/
def overlay (m : Bundle) (b : Bundle) : Bundle :=
  m.map (fun p => (p.1, (List.lookup p.1 b).getD p.2))

/-- Modelled from the spec: `state(unit)` returns the current attribute
bundle of all state entries. -/
def state (u : Unit) : Bundle := u.state

/-- Modelled from the spec: `parameters(unit)` returns the bundle of
trainable parameters. -/
def parameters (u : Unit) : Bundle := u.params

/-- Modelled from the spec: `set_attributes(unit, bundle)` returns a new
Unit with values from the bundle overlaid onto matching names (parameters,
state, or simulation parameters); names not present in the bundle are left
unchanged; names in the bundle not recognised by the unit signal an
UnknownAttributeError. -/
def set_attributes (u : Unit) (b : Bundle) : Except String Unit :=
  if b.all (fun p => decide (p.1 ∈ declaredNames u)) then
    Except.ok
      { u with
        params := overlay u.params b
        state := overlay u.state b
        simparams := overlay u.simparams b }
  else
    Except.error "UnknownAttributeError"

/-- The merge of a bundle over a unit: values from the bundle overlaid onto
matching declared names, all other entries kept; the successful result of
set_attributes. -/
def apply_bundle (u : Unit) (b : Bundle) : Unit :=
  { u with
    params := overlay u.params b
    state := overlay u.state b
    simparams := overlay u.simparams b }

/-- Modelled from the spec: `reset_state(unit)` returns a new Unit whose
state entries are restored to their declared initial values; parameters are
unaffected. -/
def reset_state (u : Unit) : Unit :=
  { u with state := u.init_state }

/-- Modelled from the spec: `reset_parameters(unit)` returns a new Unit
whose parameters are restored to their declared initial values; state is
unaffected. -/
def reset_parameters (u : Unit) : Unit :=
  { u with params := u.init_params }

/-! ## Flattening -/

/-- Modelled from the spec: the static metadata produced by flattening --
names, simulation parameters, declared initial values and the shape
descriptor -- from which the constructor can be re-invoked. -/
structure StaticMeta : Type where
  param_names : List String
  state_names : List String
  sim_params : Bundle
  init_params : Bundle
  init_state : Bundle
  shape : Nat
deriving DecidableEq

/-- A flattened unit: dynamic leaves plus static metadata. -/
structure FlatUnit : Type where
  leaves : List Value
  static : StaticMeta
deriving DecidableEq

/-- Modelled from the spec: `tree_flatten` (JaxModule.tree_flatten is not in
the source tree) separates the dynamic leaves (parameter and state values,
eligible for functional update) from the static metadata (names, simulation
parameters, initial values, shape) needed to reconstruct the structure of
the Unit. -/
def tree_flatten (u : Unit) : FlatUnit :=
  { leaves := u.params.map Prod.snd ++ u.state.map Prod.snd
    static :=
      { param_names := u.params.map Prod.fst
        state_names := u.state.map Prod.fst
        sim_params := u.simparams
        init_params := u.init_params
        init_state := u.init_state
        shape := u.shape } }

/-- Modelled from the spec: `tree_unflatten` re-invokes the constructor from
the static metadata and re-attaches the dynamic leaves. -/
def tree_unflatten (f : FlatUnit) : Unit :=
  { params := f.static.param_names.zip (f.leaves.take f.static.param_names.length)
    state := f.static.state_names.zip (f.leaves.drop f.static.param_names.length)
    simparams := f.static.sim_params
    init_params := f.static.init_params
    init_state := f.static.init_state
    shape := f.static.shape }

/-! ## Evolution -/

/-- Modelled from the spec: the random generator key carried in a Unit state
is advanced deterministically by `evolve` (splitting or advancing it). -/
def nextKey (k : ℤ) : ℤ := 2 * k + 1

/-- Modelled from the spec: the accumulation-style update of the concrete
scenario -- each timestep adds the input vector to the neuron state; the
outputs are the successive states and the final state is returned. -/
def accumulate (st : List ℤ) : List (List ℤ) → List (List ℤ) × List ℤ
  | [] => ([], st)
  | xt :: rest =>
    let st2 := List.zipWith (fun a b => a + b) st xt
    let (outs, fin) := accumulate st2 rest
    (st2 :: outs, fin)

/-- Modelled from the spec: `evolve(unit, input)` (the module implementation
is not in the source tree) is a pure function of the current parameters and
state of the unit and of the input; it returns the output series, a complete
new state bundle covering every declared state entry, and a diagnostic
record bundle.  The rng key held in the unit state is advanced
deterministically; no global random state is read. -/
def evolve (u : Unit) (x : List (List ℤ)) : List (List ℤ) × Bundle × Bundle :=
  let st0 : List ℤ :=
    match List.lookup "neur_state" u.state with
    | some (Value.arr l) => l
    | _ => []
  let (outs, fin) := accumulate st0 x
  let key2 : Value :=
    match List.lookup "rng_key" u.state with
    | some (Value.num k) => Value.num (nextKey k)
    | some v => v
    | none => Value.num 0
  (outs, overlay u.state [("neur_state", Value.arr fin), ("rng_key", key2)], [])

/-! ## A machine state for the mutation and determinism claims

The repository notebooks observe Units through a mutable interpreter heap
(`mod.state()` before and after a call).  We model the interpreter state as
a heap of Units addressed by identifier, together with a global random
generator, and express each protocol operation as a step on that state. -/

/-- The interpreter world: a heap of Units plus the global random state that
`evolve` is forbidden to read. -/
structure World : Type where
  units : List (Nat × Unit)
  globalRng : Nat
deriving DecidableEq

instance : DecidableEq ((List (List ℤ) × Bundle × Bundle) × World) :=
  @instDecidableEqProd _ _ inferInstance inferInstance

/-- Look a unit up in the world heap. -/
def getUnit (w : World) (uid : Nat) : Option Unit :=
  List.lookup uid w.units

/-- Modelled from the spec: evolution as a step on the interpreter state.
`evolve` MUST NOT mutate the unit, so the step returns the heap unchanged
together with the `(output, new_state_bundle, record)` triple. -/
def evolveStep (w : World) (uid : Nat) (x : List (List ℤ)) :
    Option ((List (List ℤ) × Bundle × Bundle) × World) :=
  (getUnit w uid).map (fun u => (evolve u x, w))

/-- Modelled from the spec: `set_attributes` as a step on the interpreter
state: it returns a new Unit value and leaves the heap -- in particular the
original unit -- unchanged. -/
def set_attributesStep (w : World) (uid : Nat) (b : Bundle) :
    Option (Except String Unit × World) :=
  (getUnit w uid).map (fun u => (set_attributes u b, w))

/-! ## The design-rule checker

Embedded from the notebook source (part_001): `DRCError`, the design-rule
functions, and `check_drc`.  A design rule is a named check over a graph; in
Python it either returns, raises a `DRCError`, or raises some other
exception, which we reify as an outcome value. -/

/-- The outcome of running one design rule on a graph: it passes, raises a
DRCError carrying its argument chain, or raises an exception that is not a
DRCError. -/
inductive RuleOutcome : Type where
  | ok
  | drcError (args : List String)
  | otherError (msg : String)
deriving DecidableEq

/-- A named design rule over graphs of type G (the Python rule function,
whose name is read from `dr.__name__`). -/
structure DesignRule (G : Type) : Type where
  name : String
  run : G → RuleOutcome

/-- An error escaping `check_drc`: either the DRCError raised by the checker
itself, or a propagated exception of another type. -/
inductive CheckError : Type where
  | drc (msg : String)
  | other (msg : String)
deriving DecidableEq

/-- The message of the DRCError raised by `check_drc`: the rule name
followed by the joined chain of the violation arguments (the Python
f-string formatting of a string argument is the identity). -/
def drcMessage (ruleName : String) (args : List String) : String :=
  "Design rule " ++ ruleName ++ " triggered an error:\n" ++ String.join args

/-- `check_drc(graph, design_rules)` from the notebook source: run each rule
in order; a DRCError raised by a rule is re-raised wrapped with the rule
name and the joined violation messages; any other exception propagates; the
loop stops at the first raise. -/
def check_drc {G : Type} (graph : G) : List (DesignRule G) → Except CheckError PUnit.{1}
  | [] => Except.ok PUnit.unit
  | dr :: rest =>
    match dr.run graph with
    | RuleOutcome.ok => check_drc graph rest
    | RuleOutcome.drcError args => Except.error (CheckError.drc (drcMessage dr.name args))
    | RuleOutcome.otherError msg => Except.error (CheckError.other msg)

/-- Instrumented form of `check_drc`: additionally returns, in order, the
names of the rules that were actually invoked. -/
def check_drc_trace {G : Type} (graph : G) :
    List (DesignRule G) → List String × Except CheckError PUnit.{1}
  | [] => ([], Except.ok PUnit.unit)
  | dr :: rest =>
    match dr.run graph with
    | RuleOutcome.ok =>
      (dr.name :: (check_drc_trace graph rest).1, (check_drc_trace graph rest).2)
    | RuleOutcome.drcError args =>
      ([dr.name], Except.error (CheckError.drc (drcMessage dr.name args)))
    | RuleOutcome.otherError msg =>
      ([dr.name], Except.error (CheckError.other msg))

/-! ## Graph modules and nodes

The graph data model from the notebook source (part_001): GraphModules hold
ordered input and output node lists; GraphNodes hold source and sink module
lists; equality of modules and nodes is by object identity, which we model
with natural-number identifiers resolved through a graph state. -/

/-- A graph node: source modules (producers) and sink modules (consumers),
referenced by module identifier. -/
structure GraphNode : Type where
  source_modules : List Nat
  sink_modules : List Nat
deriving DecidableEq

/-- The module kinds appearing in the notebook source: the MyNeurons
subclass authored there, the LIFNeuronWithSynsRealValue source kind, the
LinearWeights kind used by the design rules, and a generic module. -/
inductive GModKind : Type where
  | myNeurons (thresholds : List ℤ) (dt : ℚ)
  | lifRealValue (threshold : List ℚ) (dt : Option ℚ)
  | linearWeights
  | generic
deriving DecidableEq

/-- A graph module: name, ordered input and output node identifier lists,
and its kind with the kind-specific fields. -/
structure GraphModule : Type where
  name : String
  input_nodes : List Nat
  output_nodes : List Nat
  kind : GModKind
deriving DecidableEq

/-- The surrounding graph, addressed by identifiers: module and node tables
plus a fresh-identifier counter used when new objects are created. -/
structure GraphState : Type where
  modules : List (Nat × GraphModule)
  nodes : List (Nat × GraphNode)
  fresh : Nat
deriving DecidableEq

/-- The Python runtime class name of a module (`type(mod).__name__`). -/
def typeName (m : GraphModule) : String :=
  match m.kind with
  | GModKind.myNeurons _ _ => "MyNeurons"
  | GModKind.lifRealValue _ _ => "LIFNeuronWithSynsRealValue"
  | GModKind.linearWeights => "LinearWeights"
  | GModKind.generic => "GraphModule"

/-- Whether a module is an instance of the MyNeurons class. -/
def is_myNeurons (m : GraphModule) : Bool :=
  match m.kind with
  | GModKind.myNeurons _ _ => true
  | _ => false

/-- Whether a module is an instance of LIFNeuronWithSynsRealValue. -/
def is_lifRealValue (m : GraphModule) : Bool :=
  match m.kind with
  | GModKind.lifRealValue _ _ => true
  | _ => false

/-- Whether no authored conversion rule of the example matches the module:
it is neither a MyNeurons nor a LIFNeuronWithSynsRealValue. -/
def matches_no_rule (m : GraphModule) : Bool :=
  !is_myNeurons m && !is_lifRealValue m

/-- The message of the ValueError raised by the example conversion when no
rule matches, naming the source kind and the target kind. -/
def cannotConvertMessage (srcKind : String) : String :=
  "Graph module of type " ++ srcKind ++ " cannot be converted to a MyNeurons"

/-- The message of the ValueError raised when the source module has no dt
set. -/
def noDtMessage (srcKind : String) : String :=
  "Graph module of type " ++ srcKind ++
    " has no dt set, so cannot convert time constants when converting to MyNeurons."

/-- Rounding to the nearest integer with ties to even, the behaviour of
numpy round used by the example conversion for the thresholds; computed on
the numerator and denominator: with f the floor of q, the fractional part
of q is compared against one half by comparing twice the fractional
numerator against the denominator. -/
def npRound (q : ℚ) : ℤ :=
  let n := q.num
  let d := (q.den : ℤ)
  let f := Int.fdiv n d
  let r2 := 2 * (n - f * d)
  if r2 < d then f
  else if d < r2 then f + 1
  else if f % 2 = 0 then f else f + 1

/-- Modelled from the spec: `GraphModule._factory` (rockpool.graph, not in
the source tree); per the method table of the notebook it instantiates an
object with self-created input and output nodes, correctly connected to the
module being created.  Fresh node identifiers and a fresh module identifier
are drawn from the graph counter; each created input node records the new
module as a sink, each created output node records it as a source. -/
def factory (g : GraphState) (n_in n_out : Nat) (name : String)
    (thresholds : List ℤ) (dt : ℚ) : GraphState × Nat :=
  let inIds := (List.range n_in).map (fun i => g.fresh + i)
  let outIds := (List.range n_out).map (fun i => g.fresh + n_in + i)
  let modId := g.fresh + n_in + n_out
  let newMod : GraphModule :=
    { name := name
      input_nodes := inIds
      output_nodes := outIds
      kind := GModKind.myNeurons thresholds dt }
  let newNodes :=
    inIds.map (fun i => (i, ({ source_modules := [], sink_modules := [modId] } : GraphNode)))
      ++ outIds.map (fun i => (i, ({ source_modules := [modId], sink_modules := [] } : GraphNode)))
  ({ modules := g.modules ++ [(modId, newMod)]
     nodes := g.nodes ++ newNodes
     fresh := g.fresh + n_in + n_out + 1 }, modId)

/-- Modelled from the spec: `rockpool.graph.replace_module` is not in the
source tree; per the notebook comment it replaces the target module in the
surrounding graph in place -- every node reference to the old module is
redirected to the new module and the old module is dropped from the module
table. -/
def replace_module (g : GraphState) (oldId newId : Nat) : GraphState :=
  { g with
    modules := g.modules.filter (fun p => p.1 != oldId)
    nodes := g.nodes.map (fun p =>
      (p.1,
        { source_modules := p.2.source_modules.map (fun i => if i = oldId then newId else i)
          sink_modules := p.2.sink_modules.map (fun i => if i = oldId then newId else i) })) }

/-- The example `MyNeurons._convert_from` from the notebook source, as a
step on the graph state: an already-converted module is returned unchanged;
a LIFNeuronWithSynsRealValue module with no dt raises a ValueError; with a
dt the thresholds are rounded, a new MyNeurons module is built with the
factory and replaces the source module in the graph; any other kind raises
a ValueError naming both kinds. -/
def convert_from (g : GraphState) (mid : Nat) : Except String (Nat × GraphState) :=
  match List.lookup mid g.modules with
  | none => Except.error "module not present in graph"
  | some m =>
    match m.kind with
    | GModKind.myNeurons _ _ => Except.ok (mid, g)
    | GModKind.lifRealValue threshold dtOpt =>
      match dtOpt with
      | none => Except.error (noDtMessage (typeName m))
      | some dt =>
        let thresholds := threshold.map npRound
        let (g1, newId) :=
          factory g m.input_nodes.length m.output_nodes.length m.name thresholds dt
        Except.ok (newId, replace_module g1 mid newId)
    | _ => Except.error (cannotConvertMessage (typeName m))

/-! ## add_input -/

/-- Update every entry of an association list holding the given key. -/
def updateWith (l : List (Nat × α)) (k : Nat) (f : α → α) : List (Nat × α) :=
  l.map (fun p => if p.1 = k then (p.1, f p.2) else p)

/-- Modelled from the spec: `GraphModule.add_input` (rockpool.graph, not in
the source tree) registers the node in the ordered input list of the module
and records the module as a sink of the node; adding the same node twice is
a no-op, so registration is guarded by membership on both sides. -/
def add_input (g : GraphState) (mid nid : Nat) : GraphState :=
  match List.lookup mid g.modules with
  | none => g
  | some m =>
    if nid ∈ m.input_nodes then g
    else
      { g with
        modules := updateWith g.modules mid
          (fun mo => { mo with input_nodes := mo.input_nodes ++ [nid] })
        nodes := updateWith g.nodes nid
          (fun no =>
            { no with
              sink_modules :=
                if mid ∈ no.sink_modules then no.sink_modules
                else no.sink_modules ++ [mid] }) }

/-! ## Concrete instances used by the witness theorems -/

/-- A concrete three-element unit in the style of the notebook module: a
time-constant parameter, a neuron state and an rng key, a simulation
parameter, and the matching declared initial values. -/
def u0 : Unit :=
  { params := [("tau", Value.arr [1, 1, 1])]
    state := [("rng_key", Value.num 1), ("neur_state", Value.arr [0, 0, 0])]
    simparams := [("dt", Value.num 1)]
    init_params := [("tau", Value.arr [1, 1, 1])]
    init_state := [("rng_key", Value.num 1), ("neur_state", Value.arr [0, 0, 0])]
    shape := 3 }

/-- A world holding the concrete unit, with one global random state. -/
def w0 : World := { units := [(0, u0)], globalRng := 0 }

/-- The same heap as w0 under a different global random state. -/
def w1 : World := { units := [(0, u0)], globalRng := 99 }

/-- A concrete one-timestep input series. -/
def x0 : List (List ℤ) := [[1, 2, 3]]

/-- The concrete result of evolving u0 on x0. -/
def r0 : List (List ℤ) × Bundle × Bundle :=
  ([[1, 2, 3]], [("rng_key", Value.num 3), ("neur_state", Value.arr [1, 2, 3])], [])

/-- A concrete bundle restricted to the declared names of u0. -/
def b0 : Bundle := [("neur_state", Value.arr [5, 5, 5])]

/-- A rule that always raises a DRCError. -/
def drBoom : DesignRule Nat := { name := "r1", run := fun _ => RuleOutcome.drcError ["boom"] }

/-- A rule that always passes. -/
def drPass : DesignRule Nat := { name := "r0", run := fun _ => RuleOutcome.ok }

/-- A rule placed after a failing rule; it would pass if it were invoked. -/
def drAfter : DesignRule Nat := { name := "r2", run := fun _ => RuleOutcome.ok }

/-- A rule that raises an exception that is not a DRCError. -/
def drCrash : DesignRule Nat :=
  { name := "rc", run := fun _ => RuleOutcome.otherError "TypeError: kaboom" }

/-- A concrete MyNeurons graph module. -/
def gmNeur : GraphModule :=
  { name := "n", input_nodes := [10], output_nodes := [11],
    kind := GModKind.myNeurons [1] 1 }

/-- A concrete generic graph module, matched by no conversion rule. -/
def gmGen : GraphModule :=
  { name := "w", input_nodes := [], output_nodes := [], kind := GModKind.generic }

/-- The rational three halves, given in normal form so that threshold
rounding evaluates by integer arithmetic on numerator and denominator. -/
def q32 : ℚ := ⟨3, 2, by decide, by decide⟩

/-- A concrete real-valued LIF graph module with a dt set. -/
def gmLif : GraphModule :=
  { name := "lif", input_nodes := [10], output_nodes := [11],
    kind := GModKind.lifRealValue [q32] (some 1) }

/-- A graph holding a MyNeurons module and a generic module. -/
def gA : GraphState :=
  { modules := [(0, gmNeur), (1, gmGen)], nodes := [], fresh := 20 }

/-- A graph holding a real-valued LIF module wired to two nodes. -/
def gL : GraphState :=
  { modules := [(0, gmLif)]
    nodes := [(10, { source_modules := [], sink_modules := [0] }),
              (11, { source_modules := [0], sink_modules := [] })]
    fresh := 20 }

/-- A graph with one module and one unconnected node, for add_input. -/
def gN : GraphState :=
  { modules := [(0, gmGen)]
    nodes := [(5, { source_modules := [], sink_modules := [] })]
    fresh := 20 }

/-! ## Helper lemmas -/

/-- Looking a name up after an overlay: entries of the underlying mapping
take the bundle value when the bundle has the name, otherwise keep their
value; no new names appear. -/
theorem lookup_overlay (m b : Bundle) (n : String) :
    List.lookup n (overlay m b) =
      (List.lookup n m).map (fun old => (List.lookup n b).getD old) := by
  induction m with
  | nil => rfl
  | cons p rest ih =>
    by_cases h : n = p.1
    · simp [overlay, List.lookup, h]
    · have hb : (n == p.1) = false := beq_eq_false_iff_ne.mpr h
      simp only [overlay, List.map_cons, List.lookup, hb]
      exact ih

/-- Zipping the first projections of a pair list with its second
projections restores the list. -/
theorem zip_fst_snd (l : List (α × β)) :
    (l.map Prod.fst).zip (l.map Prod.snd) = l := by
  induction l with
  | nil => rfl
  | cons p rest ih => simp [ih]

/-- The checker agrees with its instrumented form. -/
theorem check_drc_eq_trace {G : Type} (g : G) (rules : List (DesignRule G)) :
    check_drc g rules = (check_drc_trace g rules).2 := by
  induction rules with
  | nil => rfl
  | cons dr rest ih =>
    unfold check_drc check_drc_trace
    cases dr.run g <;> simp [ih]

/-- Running the instrumented checker past a prefix of passing rules invokes
every rule of the prefix and continues with the remaining rules. -/
theorem trace_append_ok {G : Type} (g : G) (pre rs : List (DesignRule G))
    (hpre : ∀ p ∈ pre, p.run g = RuleOutcome.ok) :
    check_drc_trace g (pre ++ rs) =
      (pre.map DesignRule.name ++ (check_drc_trace g rs).1, (check_drc_trace g rs).2) := by
  induction pre with
  | nil =>
    cases h : check_drc_trace g rs with
    | mk a b => simp [h]
  | cons p pre ih =>
    have hp : p.run g = RuleOutcome.ok := hpre p (List.mem_cons_self _ _)
    have ih2 := ih (fun q hq => hpre q (List.mem_cons_of_mem _ hq))
    simp only [List.cons_append, check_drc_trace, hp, List.append_eq, ih2, List.map_cons]

/-- The checker returns successfully exactly when every rule passes. -/
theorem check_drc_ok_iff {G : Type} (g : G) (rules : List (DesignRule G)) :
    check_drc g rules = Except.ok PUnit.unit ↔ ∀ q ∈ rules, q.run g = RuleOutcome.ok := by
  induction rules with
  | nil => simp [check_drc]
  | cons dr rest ih =>
    unfold check_drc
    cases h : dr.run g <;> simp [h, ih]

/-- Looking up the updated key after updating an association list at that
key. -/
theorem lookup_updateWith (l : List (Nat × α)) (k : Nat) (f : α → α) :
    List.lookup k (updateWith l k f) = (List.lookup k l).map f := by
  induction l with
  | nil => rfl
  | cons p rest ih =>
    simp only [updateWith, List.map_cons]
    by_cases h : p.1 = k
    · have hb : (k == p.1) = true := beq_iff_eq.mpr h.symm
      rw [if_pos h]
      simp [List.lookup, hb]
    · have hb : (k == p.1) = false := beq_eq_false_iff_ne.mpr (fun e => h e.symm)
      rw [if_neg h]
      simp only [List.lookup, hb]
      exact ih

/-- Adding the same input node twice is the same as adding it once. -/
theorem add_input_twice (g : GraphState) (mid nid : Nat) :
    add_input (add_input g mid nid) mid nid = add_input g mid nid := by
  cases hm : List.lookup mid g.modules with
  | none =>
    have h1 : add_input g mid nid = g := by
      unfold add_input; rw [hm]
    rw [h1]; unfold add_input; rw [hm]
  | some m =>
    by_cases hmem : nid ∈ m.input_nodes
    · have h1 : add_input g mid nid = g := by
        unfold add_input; rw [hm]; exact if_pos hmem
      rw [h1]; unfold add_input; rw [hm]; exact if_pos hmem
    · have h1 : add_input g mid nid =
        { g with
          modules := updateWith g.modules mid
            (fun mo => { mo with input_nodes := mo.input_nodes ++ [nid] })
          nodes := updateWith g.nodes nid
            (fun no =>
              { no with
                sink_modules :=
                  if mid ∈ no.sink_modules then no.sink_modules
                  else no.sink_modules ++ [mid] }) } := by
        unfold add_input; rw [hm]; exact if_neg hmem
      rw [h1]
      unfold add_input
      rw [show List.lookup mid (updateWith g.modules mid
          (fun mo => { mo with input_nodes := mo.input_nodes ++ [nid] })) =
          some { m with input_nodes := m.input_nodes ++ [nid] } by
        rw [lookup_updateWith, hm]; rfl]
      exact if_pos (by simp)

/-! ## Claim theorems -/

/-- Claim C1: the design-rule runner executes the rules in order; if some
rule raises a violation, the run raises a DRCError whose message is that
rule name followed by the full chain of the violation messages, and no rule
after the first violating rule is invoked; the run returns successfully if
and only if every rule passes. -/
theorem run_design_rules_fail_fast {G : Type} (g : G) (pre post : List (DesignRule G))
    (r : DesignRule G) (args : List String)
    (hpre : ∀ p ∈ pre, p.run g = RuleOutcome.ok)
    (hr : r.run g = RuleOutcome.drcError args) :
    check_drc g (pre ++ r :: post) =
      Except.error (CheckError.drc (drcMessage r.name args)) ∧
    (check_drc_trace g (pre ++ r :: post)).1 = pre.map DesignRule.name ++ [r.name] ∧
    ∀ rules : List (DesignRule G),
      (check_drc g rules = Except.ok PUnit.unit ↔
        ∀ q ∈ rules, q.run g = RuleOutcome.ok) := by
  have htr : check_drc_trace g (r :: post) =
      ([r.name], Except.error (CheckError.drc (drcMessage r.name args))) := by
    simp [check_drc_trace, hr]
  have happ := trace_append_ok g pre (r :: post) hpre
  refine ⟨?_, ?_, fun rules => check_drc_ok_iff g rules⟩
  · rw [check_drc_eq_trace, happ, htr]
  · rw [happ, htr]

/-- Witness for C1: a failing rule followed by a passing rule, over a
concrete graph; the error carries the rule name and the violation message
and only the first rule is invoked. -/
theorem run_design_rules_fail_fast_witness :
    check_drc 0 ([] ++ drBoom :: [drAfter]) =
      Except.error (CheckError.drc (drcMessage drBoom.name ["boom"])) ∧
    (check_drc_trace 0 ([] ++ drBoom :: [drAfter])).1 =
      List.map DesignRule.name ([] : List (DesignRule Nat)) ++ [drBoom.name] :=
  ⟨(run_design_rules_fail_fast 0 [] [drAfter] drBoom ["boom"]
      (fun p hp => absurd hp (List.not_mem_nil p)) rfl).1,
   (run_design_rules_fail_fast 0 [] [drAfter] drBoom ["boom"]
      (fun p hp => absurd hp (List.not_mem_nil p)) rfl).2.1⟩

/-- Claim C10: if a design rule raises an exception that is not a DRCError,
check_drc propagates it unwrapped, without the rule name attached, and the
remaining rules are still not run. -/
theorem check_drc_propagates_non_drc {G : Type} (g : G) (pre post : List (DesignRule G))
    (r : DesignRule G) (msg : String)
    (hpre : ∀ p ∈ pre, p.run g = RuleOutcome.ok)
    (hr : r.run g = RuleOutcome.otherError msg) :
    check_drc g (pre ++ r :: post) = Except.error (CheckError.other msg) ∧
    (check_drc_trace g (pre ++ r :: post)).1 = pre.map DesignRule.name ++ [r.name] := by
  have htr : check_drc_trace g (r :: post) =
      ([r.name], Except.error (CheckError.other msg)) := by
    simp [check_drc_trace, hr]
  have happ := trace_append_ok g pre (r :: post) hpre
  refine ⟨?_, ?_⟩
  · rw [check_drc_eq_trace, happ, htr]
  · rw [happ, htr]

/-- Witness for C10: a passing rule, then a rule raising a non-DRC
exception, then a rule that is never invoked. -/
theorem check_drc_propagates_non_drc_witness :
    check_drc 7 ([drPass] ++ drCrash :: [drAfter]) =
      Except.error (CheckError.other "TypeError: kaboom") ∧
    (check_drc_trace 7 ([drPass] ++ drCrash :: [drAfter])).1 =
      List.map DesignRule.name [drPass] ++ [drCrash.name] :=
  ⟨(check_drc_propagates_non_drc 7 [drPass] [drAfter] drCrash "TypeError: kaboom"
      (fun p hp => by rw [List.mem_singleton.mp hp]; rfl) rfl).1,
   (check_drc_propagates_non_drc 7 [drPass] [drAfter] drCrash "TypeError: kaboom"
      (fun p hp => by rw [List.mem_singleton.mp hp]; rfl) rfl).2⟩

/-- Claim C4: the flatten and unflatten round trip reproduces the Unit
exactly: all parameter, state and simulation-parameter values, and the
static shape metadata, are recovered. -/
theorem tree_roundtrip (u : Unit) : tree_unflatten (tree_flatten u) = u := by
  have h1 : (u.params.map Prod.snd ++ u.state.map Prod.snd).take
      (u.params.map Prod.fst).length = u.params.map Prod.snd :=
    List.take_left' (by simp)
  have h2 : (u.params.map Prod.snd ++ u.state.map Prod.snd).drop
      (u.params.map Prod.fst).length = u.state.map Prod.snd :=
    List.drop_left' (by simp)
  unfold tree_flatten tree_unflatten
  simp only [h1, h2, zip_fst_snd]

/-- Claim C7: reset_state is idempotent; each application restores the
state entries to their declared initial values and leaves the parameters
unaffected. -/
theorem reset_state_idempotent (u : Unit) :
    reset_state (reset_state u) = reset_state u ∧
    state (reset_state u) = u.init_state ∧
    parameters (reset_state u) = parameters u :=
  ⟨rfl, rfl, rfl⟩

/-- Claim C2: an evolve call does not mutate the unit: the interpreter heap
is returned unchanged, so reading the unit state after the call gives the
same bundle as before the call, even though the returned new state bundle
may differ. -/
theorem evolve_no_mutation (w : World) (uid : Nat) (x : List (List ℤ))
    (res : (List (List ℤ) × Bundle × Bundle) × World)
    (h : evolveStep w uid x = some res) :
    res.2 = w ∧ (getUnit res.2 uid).map state = (getUnit w uid).map state := by
  cases hg : getUnit w uid with
  | none =>
    unfold evolveStep at h
    rw [hg] at h
    cases h
  | some u =>
    unfold evolveStep at h
    rw [hg] at h
    have h2 : (evolve u x, w) = res := Option.some.inj h
    rw [← h2]
    refine ⟨rfl, ?_⟩
    show (getUnit w uid).map state = (some u).map state
    rw [hg]

/-- Witness for C2: evolving the concrete unit leaves the heap unchanged
while the returned state bundle differs from the stored state. -/
theorem evolve_no_mutation_witness :
    ((r0, w0).2 = w0 ∧
      (getUnit (r0, w0).2 0).map state = (getUnit w0 0).map state) ∧
    r0.2.1 ≠ state u0 :=
  ⟨evolve_no_mutation w0 0 x0 (r0, w0) (by decide), by decide⟩

/-- Claim C6: evolve is deterministic and never reads global random state:
over any two interpreter states with the same unit heap -- regardless of the
global random generator -- an evolve call yields identical output and new
state bundle; in particular two calls on identical units and inputs yield
identical pairs. -/
theorem evolve_deterministic (w1 w2 : World) (uid : Nat) (x : List (List ℤ))
    (h : w1.units = w2.units) :
    (evolveStep w1 uid x).map (fun p => (p.1.1, p.1.2.1)) =
      (evolveStep w2 uid x).map (fun p => (p.1.1, p.1.2.1)) := by
  have hg : getUnit w1 uid = getUnit w2 uid := by
    unfold getUnit; rw [h]
  unfold evolveStep
  rw [hg]
  cases getUnit w2 uid <;> rfl

/-- Witness for C6: the same heap under two different global random states
yields the same evolve output and new state bundle. -/
theorem evolve_deterministic_witness :
    (evolveStep w0 0 x0).map (fun p => (p.1.1, p.1.2.1)) =
      (evolveStep w1 0 x0).map (fun p => (p.1.1, p.1.2.1)) :=
  evolve_deterministic w0 w1 0 x0 rfl

/-- Claim C3: for a bundle restricted to the declared names of the unit,
set_attributes succeeds with the bundle merged over the unit: state names
present in the bundle take the bundle value, state names not present keep
the unit value, and the original unit in the heap is left unchanged. -/
theorem set_attributes_merge (w : World) (uid : Nat) (u : Unit) (b : Bundle)
    (hu : getUnit w uid = some u)
    (hb : ∀ p ∈ b, p.1 ∈ declaredNames u) :
    set_attributes u b = Except.ok (apply_bundle u b) ∧
    (∀ n : String, List.lookup n (state (apply_bundle u b)) =
      (List.lookup n (state u)).map (fun old => (List.lookup n b).getD old)) ∧
    set_attributesStep w uid b = some (Except.ok (apply_bundle u b), w) := by
  have hall : b.all (fun p => decide (p.1 ∈ declaredNames u)) = true := by
    rw [List.all_eq_true]
    exact fun p hp => decide_eq_true (hb p hp)
  have hok : set_attributes u b = Except.ok (apply_bundle u b) := by
    unfold set_attributes apply_bundle
    rw [hall]
    rfl
  refine ⟨hok, ?_, ?_⟩
  · intro n
    exact lookup_overlay u.state b n
  · unfold set_attributesStep
    rw [hu]
    simp [hok]

/-- Witness for C3: a concrete bundle over a declared state name merges into
the concrete unit and the heap is unchanged. -/
theorem set_attributes_merge_witness :
    set_attributes u0 b0 = Except.ok (apply_bundle u0 b0) ∧
    List.lookup "neur_state" (state (apply_bundle u0 b0)) =
      (List.lookup "neur_state" (state u0)).map
        (fun old => (List.lookup "neur_state" b0).getD old) ∧
    set_attributesStep w0 0 b0 = some (Except.ok (apply_bundle u0 b0), w0) :=
  ⟨(set_attributes_merge w0 0 u0 b0 rfl (by decide)).1,
   (set_attributes_merge w0 0 u0 b0 rfl (by decide)).2.1 "neur_state",
   (set_attributes_merge w0 0 u0 b0 rfl (by decide)).2.2⟩

/-- Claim C5: the example conversion returns the module itself with the
graph unchanged when the module is already an instance of the target class,
and signals an error naming both the source kind and the target kind when
no authored conversion rule matches the module kind. -/
theorem convert_identity_and_unsupported (g : GraphState) (mid : Nat) (m : GraphModule)
    (hm : List.lookup mid g.modules = some m) :
    (is_myNeurons m = true → convert_from g mid = Except.ok (mid, g)) ∧
    (matches_no_rule m = true →
      convert_from g mid = Except.error (cannotConvertMessage (typeName m))) := by
  constructor
  · intro hmy
    cases hk : m.kind with
    | myNeurons th dt => simp [convert_from, hm, hk]
    | lifRealValue th dt => simp [is_myNeurons, hk] at hmy
    | linearWeights => simp [is_myNeurons, hk] at hmy
    | generic => simp [is_myNeurons, hk] at hmy
  · intro hno
    cases hk : m.kind with
    | myNeurons th dt => simp [matches_no_rule, is_myNeurons, hk] at hno
    | lifRealValue th dt => simp [matches_no_rule, is_lifRealValue, hk] at hno
    | linearWeights => simp [convert_from, hm, hk]
    | generic => simp [convert_from, hm, hk]

/-- Witness for C5: in the concrete graph, converting the MyNeurons module
returns it unchanged, and converting the generic module signals the error
naming both kinds. -/
theorem convert_identity_and_unsupported_witness :
    convert_from gA 0 = Except.ok (0, gA) ∧
    convert_from gA 1 = Except.error (cannotConvertMessage (typeName gmGen)) :=
  ⟨(convert_identity_and_unsupported gA 0 gmNeur rfl).1 rfl,
   (convert_identity_and_unsupported gA 1 gmGen rfl).2 rfl⟩

/-- Claim C9: a successful conversion is not graph-pure: converting a real
valued LIF module builds a replacement MyNeurons module with the factory and
calls replace_module on it before returning, so the graph observed after a
successful convert differs from the graph before the call, and the source
module is gone from the module table. -/
theorem convert_replaces_in_graph (g : GraphState) (mid : Nat) (m : GraphModule)
    (threshold : List ℚ) (dt : ℚ)
    (hm : List.lookup mid g.modules = some m)
    (hk : m.kind = GModKind.lifRealValue threshold (some dt)) :
    convert_from g mid =
      Except.ok
        ((factory g m.input_nodes.length m.output_nodes.length m.name
            (threshold.map npRound) dt).2,
          replace_module
            (factory g m.input_nodes.length m.output_nodes.length m.name
              (threshold.map npRound) dt).1 mid
            (factory g m.input_nodes.length m.output_nodes.length m.name
              (threshold.map npRound) dt).2) ∧
    (∀ nid g2, convert_from g mid = Except.ok (nid, g2) → g2 ≠ g) ∧
    (∀ p ∈ (replace_module
        (factory g m.input_nodes.length m.output_nodes.length m.name
          (threshold.map npRound) dt).1 mid
        (factory g m.input_nodes.length m.output_nodes.length m.name
          (threshold.map npRound) dt).2).modules, p.1 ≠ mid) := by
  have hconv : convert_from g mid =
      Except.ok
        ((factory g m.input_nodes.length m.output_nodes.length m.name
            (threshold.map npRound) dt).2,
          replace_module
            (factory g m.input_nodes.length m.output_nodes.length m.name
              (threshold.map npRound) dt).1 mid
            (factory g m.input_nodes.length m.output_nodes.length m.name
              (threshold.map npRound) dt).2) := by
    simp only [convert_from, hm, hk]
  refine ⟨hconv, ?_, ?_⟩
  · intro nid g2 h
    rw [hconv] at h
    have h2 := Except.ok.inj h
    have hR : replace_module
        (factory g m.input_nodes.length m.output_nodes.length m.name
          (threshold.map npRound) dt).1 mid
        (factory g m.input_nodes.length m.output_nodes.length m.name
          (threshold.map npRound) dt).2 = g2 := congrArg Prod.snd h2
    intro he
    have hRg : (replace_module
        (factory g m.input_nodes.length m.output_nodes.length m.name
          (threshold.map npRound) dt).1 mid
        (factory g m.input_nodes.length m.output_nodes.length m.name
          (threshold.map npRound) dt).2).fresh = g.fresh := by
      rw [hR, he]
    have hfr : g.fresh + m.input_nodes.length + m.output_nodes.length + 1 = g.fresh := hRg
    omega
  · intro p hp
    have hf := (List.mem_filter.mp hp).2
    exact bne_iff_ne.mp hf

/-- Witness for C9: converting the concrete LIF module succeeds, and the
resulting graph differs from the graph before the call. -/
theorem convert_replaces_in_graph_witness :
    convert_from gL 0 =
      Except.ok
        ((factory gL gmLif.input_nodes.length gmLif.output_nodes.length gmLif.name
            ([q32].map npRound) 1).2,
          replace_module
            (factory gL gmLif.input_nodes.length gmLif.output_nodes.length gmLif.name
              ([q32].map npRound) 1).1 0
            (factory gL gmLif.input_nodes.length gmLif.output_nodes.length gmLif.name
              ([q32].map npRound) 1).2) ∧
    replace_module
        (factory gL gmLif.input_nodes.length gmLif.output_nodes.length gmLif.name
          ([q32].map npRound) 1).1 0
        (factory gL gmLif.input_nodes.length gmLif.output_nodes.length gmLif.name
          ([q32].map npRound) 1).2 ≠ gL := by
  have h := convert_replaces_in_graph gL 0 gmLif [q32] 1 rfl rfl
  exact ⟨h.1, h.2.1 _ _ h.1⟩

/-- Claim C8: add_input is idempotent: registering the same node twice
yields the same graph as registering it once, and after the calls the node
appears exactly once in the input list of the module and the module appears
exactly once among the sinks of the node. -/
theorem add_input_idempotent (g : GraphState) (mid nid : Nat) (m : GraphModule)
    (nd : GraphNode)
    (hm : List.lookup mid g.modules = some m)
    (hn : List.lookup nid g.nodes = some nd)
    (h1 : nid ∉ m.input_nodes) (h2 : mid ∉ nd.sink_modules) :
    add_input (add_input g mid nid) mid nid = add_input g mid nid ∧
    (List.lookup mid (add_input g mid nid).modules).map
        (fun m2 => m2.input_nodes.count nid) = some 1 ∧
    (List.lookup nid (add_input g mid nid).nodes).map
        (fun n2 => n2.sink_modules.count mid) = some 1 := by
  have hg1 : add_input g mid nid =
      { g with
        modules := updateWith g.modules mid
          (fun mo => { mo with input_nodes := mo.input_nodes ++ [nid] })
        nodes := updateWith g.nodes nid
          (fun no =>
            { no with
              sink_modules :=
                if mid ∈ no.sink_modules then no.sink_modules
                else no.sink_modules ++ [mid] }) } := by
    unfold add_input
    rw [hm]
    exact if_neg h1
  refine ⟨add_input_twice g mid nid, ?_, ?_⟩
  · rw [hg1]
    show (List.lookup mid (updateWith g.modules mid
        (fun mo => { mo with input_nodes := mo.input_nodes ++ [nid] }))).map
      (fun m2 => m2.input_nodes.count nid) = some 1
    rw [lookup_updateWith, hm]
    show some ((m.input_nodes ++ [nid]).count nid) = some 1
    rw [List.count_append, List.count_eq_zero.mpr h1]
    simp
  · rw [hg1]
    show (List.lookup nid (updateWith g.nodes nid
        (fun no =>
          { no with
            sink_modules :=
              if mid ∈ no.sink_modules then no.sink_modules
              else no.sink_modules ++ [mid] }))).map
      (fun n2 => n2.sink_modules.count mid) = some 1
    rw [lookup_updateWith, hn]
    show some ((if mid ∈ nd.sink_modules then nd.sink_modules
        else nd.sink_modules ++ [mid]).count mid) = some 1
    rw [if_neg h2, List.count_append, List.count_eq_zero.mpr h2]
    simp

/-- Witness for C8: registering node 5 on module 0 of the concrete graph
twice equals registering it once, and each side of the registration appears
exactly once. -/
theorem add_input_idempotent_witness :
    add_input (add_input gN 0 5) 0 5 = add_input gN 0 5 ∧
    (List.lookup 0 (add_input gN 0 5).modules).map
        (fun m2 => m2.input_nodes.count 5) = some 1 ∧
    (List.lookup 5 (add_input gN 0 5).nodes).map
        (fun n2 => n2.sink_modules.count 0) = some 1 :=
  add_input_idempotent gN 0 5 gmGen { source_modules := [], sink_modules := [] }
    rfl rfl (by decide) (by decide)

end Rockpool
